import Mathlib

/-!
Verification of the noScribe alignment core (src/transcribe.py, src/noScribe.py).

This file shallowly embeds the pure parts of the transcription pipeline:
the time-overlap calculator, the speaker resolver, the pause formatter,
the WebVTT helpers, the crash-safe saver and the format validator.
Python ints are modelled as Lean integers, Python floats as rationals,
Python None / exceptions as Option / Except.
-/

namespace NoScribe

/-! ### Time-overlap calculator (transcribe.py lines 145 to 163, identical in noScribe.py) -/

/-- Embeds overlap_len.  The Python function returns None (modelled as none)
when the transcript segment ends before the speaker segment starts or when the
transcript segment is degenerate, 0.0 when the transcript segment starts after
the speaker segment ends, and otherwise the ratio of the inclusive overlap
length to the transcript-segment length.  ss is the speaker (diarization)
segment, ts the transcript (speech) segment. -/
def overlap_len (ss_start ss_end ts_start ts_end : ℤ) : Option ℚ :=
  if ts_end < ss_start then none
  else if ts_start > ss_end then some 0
  else
    let ts_len : ℤ := ts_end - ts_start
    if ts_len ≤ 0 then none
    else
      let overlap_start := max ss_start ts_start
      let overlap_end := min ss_end ts_end
      let ol_len := overlap_end - overlap_start + 1
      some ((ol_len : ℚ) / (ts_len : ℚ))

/-! ### Speaker resolver (transcribe.py lines 165 to 199, identical in noScribe.py) -/

/-- One diarization segment as loaded from the diarization YAML file.
The Python dict keys are "start", "end" and "label"; the key "end" is a Lean
keyword, so the field is called stop here. -/
structure DiaSegment where
  start : ℤ
  stop : ℤ
  label : String
deriving DecidableEq, Repr

/-- Embeds the label shortening in find_speaker: "S" followed by the raw label
with its first 8 characters removed, turning "SPEAKER_01" into "S01". -/
def shortLabel (label : String) : String :=
  "S" ++ String.mk (label.data.drop 8)

/-- The mutable loop state of find_speaker: spkr, overlap_found, segment_len
and is_overlapping. -/
structure FSState where
  spkr : String
  overlap_found : ℚ
  segment_len : ℤ
  is_overlapping : Bool
deriving Repr

/-- Embeds the for-loop of find_speaker.  A none result of overlap_len breaks
the scan; otherwise the state is updated exactly as in the source: once a
match with fraction at least 0.8 is recorded, it is only replaced by a
strictly shorter segment whose fraction is also at least 0.8 (setting
is_overlapping); before that, any strictly better fraction wins. -/
def findSpeakerLoop (ts te : ℤ) : FSState → List DiaSegment → FSState
  | st, [] => st
  | st, seg :: rest =>
    match overlap_len seg.start seg.stop ts te with
    | none => st
    | some t =>
      let current_segment_len := seg.stop - seg.start
      let current_segment_spkr := shortLabel seg.label
      if st.overlap_found ≥ 4/5 then
        if t ≥ 4/5 ∧ current_segment_len < st.segment_len then
          findSpeakerLoop ts te ⟨current_segment_spkr, t, current_segment_len, true⟩ rest
        else
          findSpeakerLoop ts te st rest
      else
        if t > st.overlap_found then
          findSpeakerLoop ts te ⟨current_segment_spkr, t, current_segment_len, st.is_overlapping⟩ rest
        else
          findSpeakerLoop ts te st rest

/-- Embeds find_speaker.  The threshold 0.8 of the source is the exact
rational 4/5 here.  After the loop, the label is prefixed with the overlap
marker if overlapping_speech_selected is set and a shorter-segment
replacement happened. -/
def find_speaker (diarization : List DiaSegment) (transcript_start transcript_end : ℤ)
    (overlapping_speech_selected : Bool) : String :=
  let st := findSpeakerLoop transcript_start transcript_end ⟨"", 0, 0, false⟩ diarization
  if overlapping_speech_selected ∧ st.is_overlapping then "//" ++ st.spkr else st.spkr

/-- Modelled from the spec wording of the resolver bookkeeping (section 4.2):
tracking the best fraction and best length through the scan, this flag is true
precisely when at some step a segment whose fraction is at least the 0.8
threshold replaces a current best that already reached the threshold, being
strictly shorter.  It is the specification-side counterpart of the
is_overlapping flag inside find_speaker. -/
def sawShorterReplacement (ts te : ℤ) : ℚ → ℤ → List DiaSegment → Bool
  | _, _, [] => false
  | best_fraction, best_len, seg :: rest =>
    match overlap_len seg.start seg.stop ts te with
    | none => false
    | some t =>
      let len := seg.stop - seg.start
      if best_fraction ≥ 4/5 then
        if t ≥ 4/5 ∧ len < best_len then true
        else sawShorterReplacement ts te best_fraction best_len rest
      else
        if t > best_fraction then sawShorterReplacement ts te t len rest
        else sawShorterReplacement ts te best_fraction best_len rest

/-- True when the string begins with the two-character overlap marker. -/
def hasOverlapMarker (s : String) : Bool :=
  match s.data with
  | c1 :: c2 :: _ => c1 == '/' && c2 == '/'
  | _ => false

/-! ### WebVTT escaping (transcribe.py lines 99 to 105) -/

/-- Embeds the Python str.replace for a single-character pattern: every
occurrence of c is replaced by rep, scanning left to right. -/
def replaceChar (c : Char) (rep : List Char) : List Char → List Char
  | [] => []
  | x :: xs => if x = c then rep ++ replaceChar c rep xs else x :: replaceChar c rep xs

/-- Embeds one call of the Python replace of a double newline by a single
newline: non-overlapping occurrences are rewritten left to right, so an odd
run of newlines keeps a trailing pair for the next iteration. -/
def replNN : List Char → List Char
  | [] => []
  | [c] => [c]
  | c1 :: c2 :: cs =>
    if c1 = '\n' ∧ c2 = '\n' then '\n' :: replNN cs else c1 :: replNN (c2 :: cs)

/-- Embeds the Python find test of the while loop: true when the text still
contains two consecutive newline characters. -/
def hasNN : List Char → Bool
  | [] => false
  | [_] => false
  | c1 :: c2 :: cs => (c1 = '\n' && c2 = '\n') || hasNN (c2 :: cs)

/-- Embeds the while loop of vtt_escape with explicit fuel: each firing
iteration strictly shortens the text, so fuel equal to the length of the
text always suffices (proved in collapseFuel_eq below). -/
def collapseFuel : ℕ → List Char → List Char
  | 0, cs => cs
  | n + 1, cs => if hasNN cs then collapseFuel n (replNN cs) else cs

/-- Embeds vtt_escape: replace the ampersand, then the angle brackets, then
repeatedly collapse double newlines until none remain. -/
def vtt_escape (txt : String) : String :=
  let l1 := replaceChar '&' "&amp;".data txt.data
  let l2 := replaceChar '<' "&lt;".data l1
  let l3 := replaceChar '>' "&gt;".data l2
  String.mk (collapseFuel l3.length l3)

/-- Modelled from the spec wording (section 4.4): the per-character escaping
map of the caption renderer, replacing exactly the three reserved
characters. -/
def escMap (c : Char) : List Char :=
  if c = '&' then "&amp;".data
  else if c = '<' then "&lt;".data
  else if c = '>' then "&gt;".data
  else [c]

/-- Modelled from the spec wording: escaping applied simultaneously to every
character of the text. -/
def escapeSpec : List Char → List Char
  | [] => []
  | c :: cs => escMap c ++ escapeSpec cs

/-- Modelled from the spec wording: every run of two or more consecutive
newlines collapses to a single newline. -/
def collapseSpec : List Char → List Char
  | [] => []
  | [c] => [c]
  | c1 :: c2 :: cs =>
    if c1 = '\n' ∧ c2 = '\n' then collapseSpec (c2 :: cs) else c1 :: collapseSpec (c2 :: cs)

/-- Helper for reasoning about collapseSpec: drop one leading newline. -/
def dropLeadNl : List Char → List Char
  | [] => []
  | c :: cs => if c = '\n' then cs else c :: cs

/-! ### WebVTT timestamps and anchor cues (transcribe.py lines 107 to 142) -/

/-- Two-digit zero padding, as the Python format spec 02d. -/
def pad2 (n : ℕ) : String := if n < 10 then "0" ++ toString n else toString n

/-- Three-digit zero padding, as the Python format spec 03d. -/
def pad3 (n : ℕ) : String :=
  if n < 10 then "00" ++ toString n else if n < 100 then "0" ++ toString n else toString n

/-- Embeds ms_to_webvtt: the divmod chain converting milliseconds to the
WebVTT timestamp HH:MM:SS.mmm. -/
def ms_to_webvtt (milliseconds : ℕ) : String :=
  let hours := milliseconds / 3600000
  let ms1 := milliseconds % 3600000
  let minutes := ms1 / 60000
  let ms2 := ms1 % 60000
  let seconds := ms2 / 1000
  let ms3 := ms2 % 1000
  pad2 hours ++ ":" ++ pad2 minutes ++ ":" ++ pad2 seconds ++ "." ++ pad3 ms3

/-- Splits off everything before the first occurrence of sep, or none when
sep does not occur. -/
def splitOnceAux (sep : Char) : List Char → Option (List Char × List Char)
  | [] => none
  | c :: cs =>
    if c = sep then some ([], cs)
    else
      match splitOnceAux sep cs with
      | none => none
      | some (a, b) => some (c :: a, b)

/-- Splitting with a bounded number of splits, scanning from the left. -/
def splitCharsN (sep : Char) : ℕ → List Char → List (List Char)
  | 0, cs => [cs]
  | n + 1, cs =>
    match splitOnceAux sep cs with
    | none => [cs]
    | some (a, b) => a :: splitCharsN sep n b

/-- Embeds the Python str.split with a separator and a maxsplit bound, as
used on the anchor names. -/
def pySplitN (s : String) (sep : Char) (maxsplit : ℕ) : List String :=
  (splitCharsN sep maxsplit s.data).map String.mk

/-- Numeric value of a decimal digit. -/
def digitVal (c : Char) : Option ℕ :=
  if '0' ≤ c ∧ c ≤ '9' then some (c.toNat - '0'.toNat) else none

/-- Accumulating decimal parse. -/
def parseDigitsAux : List Char → ℕ → Option ℕ
  | [], acc => some acc
  | c :: cs, acc =>
    match digitVal c with
    | none => none
    | some d => parseDigitsAux cs (acc * 10 + d)

/-- Embeds the Python int constructor restricted to the nonempty decimal
digit strings that occur in anchor names; none models the ValueError raised
on any other input. -/
def pyIntOfDigits : String → Option ℕ
  | s =>
    match s.data with
    | [] => none
    | cs => parseDigitsAux cs 0

/-- Embeds the Python str.lstrip with no argument: leading whitespace is
removed. -/
def pyLstrip (s : String) : String := String.mk (s.data.dropWhile Char.isWhitespace)

/-- Embeds the anchor-name parsing of html_to_webvtt (lines 133 to 139): the
name is split on underscores with at most 4 splits; when there is more than
one part and the first is ts, the second and third parts are parsed as
millisecond values and converted to WebVTT timestamps and the fourth part is
the speaker voice tag.  The result none models both the skipped-anchor paths
and the exceptions raised on missing or non-numeric parts. -/
def anchorCueFields (name : String) : Option (String × String × String) :=
  let name_elems := pySplitN name '_' 4
  if name_elems.length > 1 ∧ name_elems.getD 0 "" = "ts" then
    match name_elems.get? 1, name_elems.get? 2, name_elems.get? 3 with
    | some e1, some e2, some e3 =>
      match pyIntOfDigits e1, pyIntOfDigits e2 with
      | some s, some e => some (ms_to_webvtt s, ms_to_webvtt e, e3)
      | _, _ => none
    | _, _, _ => none
  else none

/-- Embeds the cue emission of html_to_webvtt (line 141) for one anchor with
zero-based index i and text content txt: cue number, timestamp line and voice
tag followed by the escaped, left-stripped text. -/
def anchor_cue (i : ℕ) (name txt : String) : Option String :=
  match anchorCueFields name with
  | some (s, e, spkr) =>
    some (toString (i + 1) ++ "\n" ++ s ++ " --> " ++ e ++ "\n<v " ++ spkr ++ ">"
      ++ pyLstrip (vtt_escape txt) ++ "\n\n")
  | none => none

/-! ### Pause formatting (transcribe.py lines 381 to 391) -/

/-- Embeds the Python round builtin on exact rationals: round half to even. -/
def roundHalfEven (q : ℚ) : ℤ :=
  let f := ⌊q⌋
  let r := q - f
  if r < 1/2 then f
  else if 1/2 < r then f + 1
  else if f % 2 = 0 then f else f + 1

/-- The three shapes a pause marker can take: the localized minutes phrase
with its numeric argument, the localized seconds phrase with its numeric
argument, or the parenthesized repeated-glyph text. -/
inductive PauseStr where
  | minutes : ℤ → PauseStr
  | seconds : ℤ → PauseStr
  | glyphs : String → PauseStr
deriving DecidableEq, Repr

/-- Embeds Python string repetition; a non-positive count gives the empty
string. -/
def strRepeat (s : String) (n : ℤ) : String :=
  String.mk (List.flatten (List.replicate n.toNat s.data))

/-- Embeds the pause formatting: the gap in milliseconds is rounded to whole
seconds; sixty or more give the minutes phrase with the rounded minute count,
ten or more give the seconds phrase, anything less gives the marker glyph
repeated once per second inside parentheses. -/
def pause_str (gap : ℤ) (pause_marker : String) : PauseStr :=
  let pause_len := roundHalfEven ((gap : ℚ) / 1000)
  if pause_len ≥ 60 then PauseStr.minutes (roundHalfEven ((pause_len : ℚ) / 60))
  else if pause_len ≥ 10 then PauseStr.seconds pause_len
  else PauseStr.glyphs (" (" ++ strRepeat pause_marker pause_len ++ ")")

/-- Embeds the gate on line 381: pause marking is enabled and the gap reaches
the configured threshold in seconds. -/
def pauseTriggers (pause : ℤ) (gap : ℤ) : Bool := pause > 0 && gap ≥ pause * 1000

/-! ### Crash-safe saver (transcribe.py lines 223 to 250) -/

/-- A file path split into directory, stem and extension, mirroring the
pathlib with_stem operation used by the saver. -/
structure SavePath where
  dir : String
  stem : String
  ext : String
deriving DecidableEq, Repr

/-- Embeds pathlib with_stem: same directory, same extension, new stem. -/
def withStem (p : SavePath) (stem : String) : SavePath := ⟨p.dir, stem, p.ext⟩

/-- The file system is modelled as an association list from paths to
contents; exists is membership. -/
def fsExists (fs : List (SavePath × String)) (p : SavePath) : Bool :=
  fs.any fun e => e.1 == p

/-- Writing records the new content for the path. -/
def fsWrite (fs : List (SavePath × String)) (p : SavePath) (text : String) :
    List (SavePath × String) :=
  (p, text) :: fs

/-- Embeds the TranscriptSaver rescue logic: when the primary write does not
fail, the text goes to the primary path; when it fails with an I/O error, the
fallback path appends _1 to the stem; if that path already exists the save
raises (the rescue_saving_failed message) and nothing is written, otherwise
the text goes to the fallback path and the returned option carries the
fallback path of the rescue notification emitted through the log callback. -/
def saver_open_write (fs : List (SavePath × String)) (file_path : SavePath)
    (primaryWriteFails : Bool) (text : String) :
    Except String (List (SavePath × String) × Option SavePath) :=
  if primaryWriteFails = false then Except.ok (fsWrite fs file_path text, none)
  else
    let fallback_path := withStem file_path (file_path.stem ++ "_1")
    if fsExists fs fallback_path then Except.error "rescue_saving_failed"
    else Except.ok (fsWrite fs fallback_path text, some fallback_path)

/-! ### Format validation (transcribe.py lines 212 to 214, identical in noScribe.py) -/

/-- The two kinds of exception relevant to the format validator. -/
inductive PyError where
  | typeError : String → PyError
  | nameError : String → PyError
deriving DecidableEq, Repr

/-- Embeds TranscriptSaver validation of the requested format.  The source
raises TypeError with a message interpolating the bare name fmt, but that
name is neither local to the method nor defined at module level in either
file, so evaluating the message raises NameError for fmt before the
TypeError is ever constructed; the embedding records that NameError. -/
def validate_format (fmt : String) : Except PyError Unit :=
  if fmt ∈ ["html", "txt", "vtt"] then Except.ok ()
  else Except.error (PyError.nameError "fmt")

/-! ### Theorems on the overlap calculator and the speaker resolver -/

/-- C3 counterexample: for the degenerate speech interval [10, 10] and the
diarization interval [0, 5], overlap_len returns 0.0 (some 0), not the
Before outcome (none), because the zero-overlap check precedes the
degeneracy check. -/
theorem overlap_len_degenerate_cex :
    overlap_len 0 5 10 10 = some 0 ∧ overlap_len 0 5 10 10 ≠ none := by decide

/-- C3 amended: a degenerate speech interval yields the Before outcome (none)
except when the speech interval lies strictly after the diarization segment
and does not trigger the too-early check, in which case 0.0 is returned. -/
theorem overlap_len_degenerate (ss_start ss_end ts_start ts_end : ℤ)
    (h : ts_end - ts_start ≤ 0) :
    overlap_len ss_start ss_end ts_start ts_end =
      if ts_end < ss_start then none else if ts_start > ss_end then some 0 else none := by
  simp only [overlap_len]
  split_ifs <;> rfl

/-- C3 witness: the amended statement evaluated at a concrete degenerate
interval that falls inside the diarization segment. -/
theorem overlap_len_degenerate_witness : overlap_len 3 8 6 5 = none := by
  have h := overlap_len_degenerate 3 8 6 5 (by norm_num)
  simpa using h

/-- C10: for a speech interval lying entirely inside a diarization segment,
overlap_len returns a fraction strictly greater than 1, because the overlap
length is computed with an inclusive-endpoint plus one while the reference
length is not. -/
theorem overlap_fraction_exceeds_one :
    ∃ a b c d : ℤ, ∃ q : ℚ, a ≤ c ∧ d ≤ b ∧ overlap_len a b c d = some q ∧ 1 < q :=
  ⟨0, 100, 10, 20, 11/10, by norm_num, by norm_num, by norm_num [overlap_len], by norm_num⟩

/-- C1 counterexample: two segments both overlapping the speech interval
[0, 100] at or above 80 percent, the second strictly shorter; with
overlapping_speech_selected set, find_speaker returns the marked label
"//S01" rather than the bare shortened label "S01" of the shorter segment. -/
theorem find_speaker_two_qualifying_cex :
    find_speaker [⟨0, 100, "SPEAKER_00"⟩, ⟨0, 99, "SPEAKER_01"⟩] 0 100 true = "//S01" ∧
      ("//S01" : String) ≠ "S01" := by
  constructor
  · norm_num [find_speaker, findSpeakerLoop, overlap_len, shortLabel]
    rfl
  · decide

/-- C1 amended: for a diarization list of two segments whose overlap fractions
with the speech interval are both at least 4/5, find_speaker returns the
shortened label of the strictly shorter segment, prefixed with the overlap
marker exactly when overlapping_speech_selected is set and the second segment
is the strictly shorter one; equal lengths keep the first label, unprefixed. -/
theorem find_speaker_two_qualifying (s1 s2 : DiaSegment) (ts te : ℤ) (b : Bool) (q1 q2 : ℚ)
    (h1 : overlap_len s1.start s1.stop ts te = some q1) (hq1 : 4/5 ≤ q1)
    (h2 : overlap_len s2.start s2.stop ts te = some q2) (hq2 : 4/5 ≤ q2) :
    find_speaker [s1, s2] ts te b =
      if s2.stop - s2.start < s1.stop - s1.start
      then (if b then "//" else "") ++ shortLabel s2.label
      else shortLabel s1.label := by
  have h0 : ¬ ((0 : ℚ) ≥ 4/5) := by norm_num
  have hgt : q1 > 0 := by linarith
  simp only [find_speaker, findSpeakerLoop, h1, h2, h0, if_false, hgt, if_true, hq1]
  split_ifs <;> simp_all

/-- C1 witness: the amended statement evaluated with the marker disabled on
the concrete counterexample instance; the strictly shorter second segment
wins and its shortened label is returned bare. -/
theorem find_speaker_two_qualifying_witness :
    find_speaker [⟨0, 100, "SPEAKER_00"⟩, ⟨0, 99, "SPEAKER_01"⟩] 0 100 false = "S01" := by
  have h := find_speaker_two_qualifying ⟨0, 100, "SPEAKER_00"⟩ ⟨0, 99, "SPEAKER_01"⟩ 0 100 false
    (101/100) 1 (by norm_num [overlap_len]) (by norm_num) (by norm_num [overlap_len]) (by norm_num)
  simp only [shortLabel] at h
  rw [h]
  norm_num
  rfl

/-- The final is_overlapping flag of the scan equals the initial flag joined
with the specification-side replacement indicator. -/
theorem loop_isOverlapping (d : List DiaSegment) (ts te : ℤ) :
    ∀ st : FSState, (findSpeakerLoop ts te st d).is_overlapping =
      (st.is_overlapping || sawShorterReplacement ts te st.overlap_found st.segment_len d) := by
  induction d with
  | nil => intro st; simp [findSpeakerLoop, sawShorterReplacement]
  | cons seg rest ih =>
    intro st
    simp only [findSpeakerLoop, sawShorterReplacement]
    cases hov : overlap_len seg.start seg.stop ts te with
    | none => simp
    | some t =>
      simp only
      split_ifs with hA hB hC
      · rw [ih]; simp
      · rw [ih]
      · rw [ih]
      · rw [ih]

/-- The label accumulated by the scan is either the initial label or starts
with the capital S introduced by the label shortening. -/
theorem loop_spkr_shape (d : List DiaSegment) (ts te : ℤ) :
    ∀ st : FSState, (findSpeakerLoop ts te st d).spkr = st.spkr ∨
      ∃ l : String, (findSpeakerLoop ts te st d).spkr = "S" ++ l := by
  induction d with
  | nil => intro st; left; rfl
  | cons seg rest ih =>
    intro st
    simp only [findSpeakerLoop]
    cases hov : overlap_len seg.start seg.stop ts te with
    | none => left; rfl
    | some t =>
      simp only
      split_ifs with hA hB hC
      · rcases ih ⟨shortLabel seg.label, t, seg.stop - seg.start, true⟩ with h | ⟨l, h⟩
        · right; exact ⟨String.mk (seg.label.data.drop 8), h⟩
        · right; exact ⟨l, h⟩
      · exact ih st
      · rcases ih ⟨shortLabel seg.label, t, seg.stop - seg.start, st.is_overlapping⟩ with h | ⟨l, h⟩
        · right; exact ⟨String.mk (seg.label.data.drop 8), h⟩
        · right; exact ⟨l, h⟩
      · exact ih st

/-- Strings produced by the label shortening never begin with the marker. -/
theorem hOM_marker (s : String) : hasOverlapMarker ("//" ++ s) = true := by
  cases s with
  | mk data => rfl

/-- A shortened label never carries the overlap marker. -/
theorem hOM_S (l : String) : hasOverlapMarker ("S" ++ l) = false := by
  cases l with
  | mk data => cases data with
    | nil => rfl
    | cons c cs => rfl

/-- Prepending the empty string is the identity. -/
theorem empty_append_str (s : String) : "" ++ s = s := by
  cases s with
  | mk data => rfl

/-- C2: the label returned by find_speaker carries the overlap marker
prefix exactly when overlapping_speech_selected is set and the winning match
was obtained through the shorter-segment replacement branch, that is, a
segment with fraction at least 0.8 replaced an earlier qualifying one;
otherwise the label is returned unprefixed. -/
theorem find_speaker_overlap_marker (d : List DiaSegment) (ts te : ℤ) (b : Bool) :
    find_speaker d ts te b =
      (if b ∧ sawShorterReplacement ts te 0 0 d then "//" else "") ++ find_speaker d ts te false
    ∧ hasOverlapMarker (find_speaker d ts te b) = (b && sawShorterReplacement ts te 0 0 d) := by
  have hov : (findSpeakerLoop ts te ⟨"", 0, 0, false⟩ d).is_overlapping =
      sawShorterReplacement ts te 0 0 d := by
    simpa using loop_isOverlapping d ts te ⟨"", 0, 0, false⟩
  have hfalse : find_speaker d ts te false =
      (findSpeakerLoop ts te ⟨"", 0, 0, false⟩ d).spkr := by
    simp [find_speaker]
  have hshape := loop_spkr_shape d ts te ⟨"", 0, 0, false⟩
  constructor
  · simp only [find_speaker, hov, hfalse]
    cases b with
    | false => simp [empty_append_str]
    | true =>
      cases hsaw : sawShorterReplacement ts te 0 0 d with
      | false => simp [empty_append_str]
      | true => simp
  · simp only [find_speaker, hov]
    cases b with
    | false =>
      simp only [false_and, if_false, Bool.false_and]
      rcases hshape with h | ⟨l, h⟩
      · rw [h]; rfl
      · rw [h]; exact hOM_S l
    | true =>
      cases hsaw : sawShorterReplacement ts te 0 0 d with
      | false =>
        simp only [hsaw, and_false, if_false, Bool.and_false]
        rcases hshape with h | ⟨l, h⟩
        · rw [h]; rfl
        · rw [h]; exact hOM_S l
      | true =>
        simp only [hsaw, and_true, true_and, if_true, Bool.and_true, Bool.true_and]
        exact hOM_marker _

/-- C7: find_speaker is a total function of its inputs (the embedding returns
a plain string, with no failure cases to model), and on the empty diarization
list it returns the empty string. -/
theorem find_speaker_total_and_empty (d : List DiaSegment) (ts te : ℤ) (b : Bool) :
    (∃ r : String, find_speaker d ts te b = r) ∧
      (d = [] → find_speaker d ts te b = "") := by
  refine ⟨⟨find_speaker d ts te b, rfl⟩, ?_⟩
  rintro rfl
  simp [find_speaker, findSpeakerLoop]

/-- C7 witness: the empty-list case at concrete arguments. -/
theorem find_speaker_total_and_empty_witness :
    find_speaker ([] : List DiaSegment) 0 1000 false = "" :=
  (find_speaker_total_and_empty [] 0 1000 false).2 rfl

/-! ### Theorems on the caption escaping -/

/-- Unfolding collapseSpec on a head that is not a newline. -/
theorem collapseSpec_cons_ne (c : Char) (ys : List Char) (h : c ≠ '\n') :
    collapseSpec (c :: ys) = c :: collapseSpec ys := by
  cases ys with
  | nil => rfl
  | cons z zs => simp [collapseSpec, h]

/-- Unfolding collapseSpec on a newline head: the collapsed tail loses one
leading newline if it has one. -/
theorem collapseSpec_nl (xs : List Char) :
    collapseSpec ('\n' :: xs) = '\n' :: dropLeadNl (collapseSpec xs) := by
  induction xs with
  | nil => rfl
  | cons y ys ih =>
    by_cases hy : y = '\n'
    · subst hy
      rw [show collapseSpec ('\n' :: '\n' :: ys) = collapseSpec ('\n' :: ys) by
          simp [collapseSpec]]
      rw [ih]
      simp [dropLeadNl]
    · rw [show collapseSpec ('\n' :: y :: ys) = '\n' :: collapseSpec (y :: ys) by
          simp [collapseSpec, hy]]
      rw [collapseSpec_cons_ne y ys hy]
      simp [dropLeadNl, hy]

/-- One replace pass does not change the fully collapsed form. -/
theorem collapseSpec_replNN (cs : List Char) :
    collapseSpec (replNN cs) = collapseSpec cs := by
  induction cs using replNN.induct with
  | case1 => rfl
  | case2 c => rfl
  | case3 c1 c2 cs h ih =>
    obtain ⟨h1, h2⟩ := h
    subst h1; subst h2
    rw [show replNN ('\n' :: '\n' :: cs) = '\n' :: replNN cs by simp [replNN]]
    rw [show collapseSpec ('\n' :: '\n' :: cs) = collapseSpec ('\n' :: cs) by simp [collapseSpec]]
    rw [collapseSpec_nl, collapseSpec_nl, ih]
  | case4 c1 c2 cs h ih =>
    rw [show replNN (c1 :: c2 :: cs) = c1 :: replNN (c2 :: cs) by simp [replNN, h]]
    by_cases hc : c1 = '\n'
    · subst hc
      rw [collapseSpec_nl, collapseSpec_nl, ih]
    · rw [collapseSpec_cons_ne c1 _ hc, collapseSpec_cons_ne c1 _ hc, ih]

/-- The fully collapsed form has no double newline left. -/
theorem hasNN_collapseSpec (cs : List Char) : hasNN (collapseSpec cs) = false := by
  induction cs using collapseSpec.induct with
  | case1 => rfl
  | case2 c => rfl
  | case3 c1 c2 cs h ih =>
    rw [show collapseSpec (c1 :: c2 :: cs) = collapseSpec (c2 :: cs) by simp [collapseSpec, h]]
    exact ih
  | case4 c1 c2 cs h ih =>
    rw [show collapseSpec (c1 :: c2 :: cs) = c1 :: collapseSpec (c2 :: cs) by
        simp [collapseSpec, h]]
    by_cases hc2 : c2 = '\n'
    · subst hc2
      have hc1 : ¬ (c1 = '\n') := fun hc1 => h ⟨hc1, rfl⟩
      rw [collapseSpec_nl] at ih ⊢
      simp [hasNN, hc1]
      simpa [hasNN] using ih
    · rw [collapseSpec_cons_ne c2 _ hc2] at ih ⊢
      simp [hasNN, hc2]
      simpa [hasNN] using ih

/-- A text without double newline is already fully collapsed. -/
theorem collapseSpec_of_no_nn (cs : List Char) (h : hasNN cs = false) :
    collapseSpec cs = cs := by
  induction cs using collapseSpec.induct with
  | case1 => rfl
  | case2 c => rfl
  | case3 c1 c2 cs hc ih =>
    exfalso
    simp [hasNN, hc.1, hc.2] at h
  | case4 c1 c2 cs hc ih =>
    have h2 : hasNN (c2 :: cs) = false := by
      simp [hasNN] at h
      tauto
    rw [show collapseSpec (c1 :: c2 :: cs) = c1 :: collapseSpec (c2 :: cs) by
        simp [collapseSpec, hc]]
    rw [ih h2]

/-- A replace pass never lengthens the text. -/
theorem replNN_length_le (cs : List Char) : (replNN cs).length ≤ cs.length := by
  induction cs using replNN.induct with
  | case1 => simp [replNN]
  | case2 c => simp [replNN]
  | case3 c1 c2 cs h ih =>
    rw [show replNN (c1 :: c2 :: cs) = '\n' :: replNN cs by simp [replNN, h]]
    simp only [List.length_cons]
    omega
  | case4 c1 c2 cs h ih =>
    rw [show replNN (c1 :: c2 :: cs) = c1 :: replNN (c2 :: cs) by simp [replNN, h]]
    simp only [List.length_cons] at ih ⊢
    omega

/-- A firing replace pass strictly shortens the text, so the while loop of
vtt_escape terminates. -/
theorem replNN_shrink (cs : List Char) (h : hasNN cs = true) :
    (replNN cs).length < cs.length := by
  induction cs using replNN.induct with
  | case1 => simp [hasNN] at h
  | case2 c => simp [hasNN] at h
  | case3 c1 c2 cs hc ih =>
    rw [show replNN (c1 :: c2 :: cs) = '\n' :: replNN cs by simp [replNN, hc]]
    have := replNN_length_le cs
    simp only [List.length_cons]
    omega
  | case4 c1 c2 cs hc ih =>
    have h2 : hasNN (c2 :: cs) = true := by
      simp [hasNN] at h
      rcases h with ⟨h1, h2⟩ | h
      · exact absurd ⟨h1, h2⟩ hc
      · exact h
    rw [show replNN (c1 :: c2 :: cs) = c1 :: replNN (c2 :: cs) by simp [replNN, hc]]
    have := ih h2
    simp only [List.length_cons] at this ⊢
    omega

/-- With fuel at least the length of the text, the fueled while loop computes
the fully collapsed form: the embedding of the source loop is faithful. -/
theorem collapseFuel_eq (n : ℕ) : ∀ cs : List Char, cs.length ≤ n →
    collapseFuel n cs = collapseSpec cs := by
  induction n with
  | zero =>
    intro cs h
    have : cs = [] := List.eq_nil_of_length_eq_zero (Nat.le_zero.mp h)
    subst this
    rfl
  | succ n ih =>
    intro cs h
    cases hnn : hasNN cs with
    | false =>
      have hstep : collapseFuel (n + 1) cs = cs := by simp [collapseFuel, hnn]
      rw [hstep]
      exact (collapseSpec_of_no_nn cs hnn).symm
    | true =>
      have hstep : collapseFuel (n + 1) cs = collapseFuel n (replNN cs) := by
        simp [collapseFuel, hnn]
      have hlt := replNN_shrink cs hnn
      rw [hstep, ih (replNN cs) (by omega)]
      exact collapseSpec_replNN cs

/-- Sequential single-character replacement distributes over concatenation. -/
theorem replaceChar_append (c : Char) (rep a b : List Char) :
    replaceChar c rep (a ++ b) = replaceChar c rep a ++ replaceChar c rep b := by
  induction a with
  | nil => rfl
  | cons x xs ih =>
    by_cases hx : x = c
    · simp [replaceChar, hx, ih, List.append_assoc]
    · simp [replaceChar, hx, ih]

/-- On a single character, the three sequential replace passes agree with the
simultaneous escaping map: the replacement texts introduce no character that
a later pass would rewrite. -/
theorem escPasses_single (c : Char) :
    replaceChar '>' "&gt;".data (replaceChar '<' "&lt;".data
      (replaceChar '&' "&amp;".data [c])) = escMap c := by
  by_cases h1 : c = '&'
  · subst h1; rfl
  · by_cases h2 : c = '<'
    · subst h2; rfl
    · by_cases h3 : c = '>'
      · subst h3; rfl
      · simp [replaceChar, escMap, h1, h2, h3]

/-- The three sequential replace passes of vtt_escape equal the simultaneous
per-character escaping. -/
theorem escPasses_eq (cs : List Char) :
    replaceChar '>' "&gt;".data (replaceChar '<' "&lt;".data
      (replaceChar '&' "&amp;".data cs)) = escapeSpec cs := by
  induction cs with
  | nil => rfl
  | cons c cs ih =>
    have h1 : replaceChar '&' "&amp;".data (c :: cs)
        = replaceChar '&' "&amp;".data [c] ++ replaceChar '&' "&amp;".data cs :=
      replaceChar_append '&' "&amp;".data [c] cs
    rw [h1, replaceChar_append, replaceChar_append, ih, escPasses_single]
    rfl

/-- C8: vtt_escape escapes exactly the ampersand and the two angle brackets,
each occurrence replaced by its entity, and collapses every run of two or
more newlines to a single one; consequently its output never contains two
consecutive newline characters. -/
theorem vtt_escape_characterization (s : String) :
    (vtt_escape s).data = collapseSpec (escapeSpec s.data) ∧
      hasNN (vtt_escape s).data = false := by
  have hdata : (vtt_escape s).data =
      collapseFuel (replaceChar '>' "&gt;".data (replaceChar '<' "&lt;".data
        (replaceChar '&' "&amp;".data s.data))).length
        (replaceChar '>' "&gt;".data (replaceChar '<' "&lt;".data
          (replaceChar '&' "&amp;".data s.data))) := rfl
  have hmain : (vtt_escape s).data = collapseSpec (escapeSpec s.data) := by
    rw [hdata, collapseFuel_eq _ _ le_rfl, escPasses_eq]
  exact ⟨hmain, by rw [hmain]; exact hasNN_collapseSpec _⟩

/-! ### Theorems on the caption renderer, pauses, saver and validator -/

/-- C6: the anchor named ts_1000_2500_S01 parses to the cue start timestamp
00:00:01.000, the cue end timestamp 00:00:02.500 and the voice tag S01, and
the emitted cue block (here as first cue, with text content hello) carries
exactly those fields. -/
theorem caption_anchor_roundtrip :
    anchorCueFields "ts_1000_2500_S01" = some ("00:00:01.000", "00:00:02.500", "S01") ∧
      anchor_cue 0 "ts_1000_2500_S01" " hello" =
        some ("1\n00:00:01.000 --> 00:00:02.500\n<v S01>hello\n\n") :=
  ⟨rfl, rfl⟩

/-- Rounding an exact integer returns that integer. -/
theorem roundHalfEven_intCast (z : ℤ) : roundHalfEven ((z : ℚ)) = z := by
  simp [roundHalfEven]

/-- Rounding a rational that equals an integer returns that integer. -/
theorem roundHalfEven_eq_int (q : ℚ) (z : ℤ) (h : q = (z : ℚ)) : roundHalfEven q = z := by
  rw [h, roundHalfEven_intCast]

/-- C4 counterexample: a gap of 9999 milliseconds rounds up to 10 seconds and
therefore takes the seconds-phrase branch, not the repeated-glyph branch with
9 or 10 glyphs. -/
theorem pause_9999_cex :
    pause_str 9999 "." = PauseStr.seconds 10 ∧
      pause_str 9999 "." ≠ PauseStr.glyphs (" (" ++ strRepeat "." 9 ++ ")") ∧
      pause_str 9999 "." ≠ PauseStr.glyphs (" (" ++ strRepeat "." 10 ++ ")") := by
  have hD : roundHalfEven ((9999 : ℚ) / 1000) = 10 := by
    have hf : ⌊(9999 : ℚ) / 1000⌋ = 9 := by
      rw [Int.floor_eq_iff]
      constructor <;> norm_num
    simp only [roundHalfEven, hf]
    norm_num
  have h : pause_str 9999 "." = PauseStr.seconds 10 := by
    norm_num [pause_str, hD]
  exact ⟨h, by rw [h]; simp, by rw [h]; simp⟩

/-- C4 amended: with the pause gate triggering, a gap of exactly 60000
milliseconds renders as the minutes phrase for 1, a gap of exactly 10000
milliseconds as the seconds phrase for 10, a gap of 9999 milliseconds also
as the seconds phrase for 10 (it rounds up to ten whole seconds), and the
repeated-glyph form appears only below that, for example a gap of 9000
milliseconds gives the marker repeated 9 times. -/
theorem pause_formatting (m : String) :
    pauseTriggers 1 60000 = true ∧ pause_str 60000 m = PauseStr.minutes 1 ∧
    pauseTriggers 1 10000 = true ∧ pause_str 10000 m = PauseStr.seconds 10 ∧
    pauseTriggers 1 9999 = true ∧ pause_str 9999 m = PauseStr.seconds 10 ∧
    pause_str 9000 m = PauseStr.glyphs (" (" ++ strRepeat m 9 ++ ")") := by
  have hA : roundHalfEven ((60 : ℚ)) = 60 := roundHalfEven_eq_int _ 60 (by norm_num)
  have hB : roundHalfEven ((10 : ℚ)) = 10 := roundHalfEven_eq_int _ 10 (by norm_num)
  have hC : roundHalfEven ((9 : ℚ)) = 9 := roundHalfEven_eq_int _ 9 (by norm_num)
  have hE : roundHalfEven ((1 : ℚ)) = 1 := roundHalfEven_eq_int _ 1 (by norm_num)
  have hD : roundHalfEven ((9999 : ℚ) / 1000) = 10 := by
    have hf : ⌊(9999 : ℚ) / 1000⌋ = 9 := by
      rw [Int.floor_eq_iff]
      constructor <;> norm_num
    simp only [roundHalfEven, hf]
    norm_num
  refine ⟨by decide, ?_, by decide, ?_, by decide, ?_, ?_⟩
  · norm_num [pause_str, hA, hE]
  · norm_num [pause_str, hB]
  · norm_num [pause_str, hD]
  · norm_num [pause_str, hC]

/-- C5: when the primary write fails, the fallback path keeps the directory
and the extension and appends _1 to the stem; if no file exists there, the
document is written to the fallback path and the rescue notification carries
that path; if a file already exists there, the save fails with the permanent
rescue_saving_failed error and nothing is written. -/
theorem saver_fallback (fs : List (SavePath × String)) (p : SavePath) (text : String) :
    (withStem p (p.stem ++ "_1")).dir = p.dir ∧
    (withStem p (p.stem ++ "_1")).ext = p.ext ∧
    (fsExists fs (withStem p (p.stem ++ "_1")) = false →
      saver_open_write fs p true text =
        Except.ok (fsWrite fs (withStem p (p.stem ++ "_1")) text,
          some (withStem p (p.stem ++ "_1")))) ∧
    (fsExists fs (withStem p (p.stem ++ "_1")) = true →
      saver_open_write fs p true text = Except.error "rescue_saving_failed") := by
  refine ⟨rfl, rfl, ?_, ?_⟩
  · intro h
    simp [saver_open_write, h]
  · intro h
    simp [saver_open_write, h]

/-- C5 witness: both branches at concrete paths, an empty file system for the
rescue write and an occupied fallback path for the permanent failure. -/
theorem saver_fallback_witness :
    saver_open_write [] ⟨"/tmp", "out", ".html"⟩ true "text" =
      Except.ok ([(⟨"/tmp", "out_1", ".html"⟩, "text")], some ⟨"/tmp", "out_1", ".html"⟩) ∧
    saver_open_write [(⟨"/tmp", "out_1", ".html"⟩, "old")] ⟨"/tmp", "out", ".html"⟩ true "text" =
      Except.error "rescue_saving_failed" := by
  constructor
  · have h := (saver_fallback [] ⟨"/tmp", "out", ".html"⟩ "text").2.2.1 (by decide)
    simpa [withStem, fsWrite] using h
  · exact (saver_fallback [(⟨"/tmp", "out_1", ".html"⟩, "old")]
      ⟨"/tmp", "out", ".html"⟩ "text").2.2.2 (by decide)

/-- C9: the three supported format identifiers pass validation, and any other
identifier raises at construction time; the raised exception, however, is the
NameError for the unresolved name fmt in the message f-string, not a
TypeError naming the invalid file type as the code intends. -/
theorem validate_format_eval :
    validate_format "html" = Except.ok () ∧ validate_format "txt" = Except.ok () ∧
    validate_format "vtt" = Except.ok () ∧
    validate_format "docx" = Except.error (PyError.nameError "fmt") := by
  refine ⟨rfl, rfl, rfl, ?_⟩
  rfl

end NoScribe
